import Mathlib

/-!
Shallow embedding of the handler-matching core of the bot-dispatch framework
(files telegram/ext/commandhandler.py, telegram/ext/inlinequeryhandler.py and
telegram/flow/inlineactionhandler.py), together with theorems checking the
specification's claims about it.

Python strings are modelled as Lean `String` (sequences of characters);
`str.lower` is modelled by `strLower` (ASCII case folding, matching
`Char.toLower`); `str.split()` by `pySplitWs`; `str.split(sep)` for a
single-character separator by `pySplitChar`; slicing `s[a:b]` by `pySlice`.
Python exceptions raised during an operation are modelled with `Except`:
`PyError.indexError` for an out-of-range subscript, `PyError.attributeError`
for an attribute access on `None`.
-/

/-- A Python runtime error raised while the embedded code executes. -/
inductive PyError where
  | indexError
  | attributeError
  deriving Repr, DecidableEq

/-- `str.lower()` on a Python string (ASCII case folding). -/
def strLower (s : String) : String :=
  String.mk (s.toList.map Char.toLower)

/-- `s[a:b]` on a Python string with `0 ≤ a ≤ b` (clamped to the length). -/
def pySlice (s : String) (a b : Nat) : String :=
  String.mk ((s.toList.take b).drop a)

/-- Accumulator loop for `str.split(sep)` with a one-character separator. -/
def pySplitCharAux (c : Char) : List Char → List Char → List String
  | [], acc => [String.mk acc]
  | x :: xs, acc =>
    if x = c then String.mk acc :: pySplitCharAux c xs []
    else pySplitCharAux c xs (acc ++ [x])

/-- Python `s.split(c)` for a single-character separator `c`: the resulting
list is never empty, and empty fields are kept. -/
def pySplitChar (s : String) (c : Char) : List String :=
  pySplitCharAux c s.toList []

/-- Accumulator loop for `str.split()` (no argument). -/
def pySplitWsAux : List Char → List Char → List String
  | [], acc => if acc = [] then [] else [String.mk acc]
  | x :: xs, acc =>
    if x.isWhitespace then
      if acc = [] then pySplitWsAux xs [] else String.mk acc :: pySplitWsAux xs []
    else pySplitWsAux xs (acc ++ [x])

/-- Python `s.split()`: split on runs of whitespace, discarding empty fields. -/
def pySplitWs (s : String) : List String :=
  pySplitWsAux s.toList []

/-- telegram.MessageEntity: the fields read by the matching logic. -/
structure MessageEntity where
  type : String
  offset : Nat
  length : Nat
  deriving Repr, DecidableEq

/-- The constant `MessageEntity.BOT_COMMAND`. -/
def MessageEntity.BOT_COMMAND : String := "bot_command"

/-- The bot attached to a message; the matching logic only reads `username`. -/
structure TBot where
  username : String
  deriving Repr, DecidableEq

/-- telegram.Message: the fields read by the matching logic.  A Python
`text` of `None` is modelled as the empty string (both are falsy and the
code only tests truthiness before using it). -/
structure Message where
  text : String
  entities : List MessageEntity
  bot : TBot
  chat_id : Int
  deriving Repr, DecidableEq

/-- telegram.InlineQuery: the matching logic only reads `query`. -/
structure InlineQuery where
  query : String
  deriving Repr, DecidableEq

/-- telegram.CallbackQuery: the matching logic reads `data` and (through
`effective_chat`) the chat of the message the query is attached to.  A
`data` of `None` is modelled as the empty string (both falsy). -/
structure CallbackQuery where
  data : String
  message : Option Message
  deriving Repr, DecidableEq

/-- telegram.Update: the payload variants the handlers under verification
read.  At most one variant is populated in a well-formed update. -/
structure Update where
  message : Option Message
  edited_message : Option Message
  channel_post : Option Message
  edited_channel_post : Option Message
  inline_query : Option InlineQuery
  callback_query : Option CallbackQuery
  deriving Repr, DecidableEq

/-- Modelled from the spec: `effective_message` is a derived accessor
returning whichever of message, edited_message, channel_post,
edited_channel_post is present, or none (the Update class itself is not
part of the sources under verification). -/
def Update.effective_message (u : Update) : Option Message :=
  match u.message with
  | some m => some m
  | none =>
    match u.edited_message with
    | some m => some m
    | none =>
      match u.channel_post with
      | some m => some m
      | none => u.edited_channel_post

/-- Modelled from the spec: `effective_chat` resolves the chat of the
populated payload; for a callback query it is the chat of the attached
message.  Only the `id` is needed here. -/
def Update.effective_chat_id (u : Update) : Option Int :=
  match u.effective_message with
  | some m => some m.chat_id
  | none =>
    match u.callback_query with
    | some cq =>
      match cq.message with
      | some m => some m.chat_id
      | none => none
    | none => none

/-- The value returned by a filter chain: Python overloads one return slot
with booleans and dicts (`None` behaves as `false`).  Dict values are
modelled as association lists of strings. -/
inductive FilterResult where
  | bool (b : Bool)
  | dict (d : List (String × String))
  deriving Repr, DecidableEq

/-- Python truthiness of a filter result: `False`/`None`/empty dict are
falsy, `True` and non-empty dicts are truthy. -/
def FilterResult.truthy : FilterResult → Bool
  | .bool b => b
  | .dict d => decide (d ≠ [])

/-- The three-way outcome of `check_update`: Python `None` (no match),
Python `False` (shape matched, filters vetoed), or the pair
`(args, filter_result)` returned on success. -/
inductive CheckResult where
  | noMatch
  | rejected
  | matched (args : List String) (fr : FilterResult)
  deriving Repr, DecidableEq

/-- One character of the class `[\da-z_]` (code points: `a`-`z` are 97-122,
`0`-`9` are 48-57, `_` is 95; the validation regex is applied to the
already lower-cased command). -/
def isCommandChar (c : Char) : Bool :=
  decide ((97 ≤ c.toNat ∧ c.toNat ≤ 122) ∨ (48 ≤ c.toNat ∧ c.toNat ≤ 57) ∨ c.toNat = 95)

/-- Python `re.match(r'^[\da-z_]{1,32}$', s)` viewed as a predicate. -/
def validBotCommand (s : String) : Bool :=
  decide (1 ≤ s.toList.length) && decide (s.toList.length ≤ 32) && s.toList.all isCommandChar

/-- CommandHandler: the configuration its matching logic reads.  `filters`
is the attached filter chain `self.filters` as one function (the Filters
combinator library is outside the sources under verification, so the
already-combined chain is taken as an argument); the opaque user `callback`
is omitted. -/
structure CommandHandler where
  command : List String
  filters : Update → FilterResult

/-- `CommandHandler.__init__` for a list argument (a single-string argument
behaves as the singleton list): lower-case every command, then raise
`ValueError` unless each matches `^[\da-z_]{1,32}$`. -/
def CommandHandler.init (command : List String) (filters : Update → FilterResult) :
    Except String CommandHandler :=
  let cmds := command.map strLower
  if cmds.all validBotCommand then
    Except.ok { command := cmds, filters := filters }
  else
    Except.error ("Command is not a valid bot command")

/-- `CommandHandler.check_update`. -/
def CommandHandler.check_update (h : CommandHandler) (u : Update) : CheckResult :=
  match u.effective_message with
  | none => .noMatch
  | some message =>
    match message.entities with
    | [] => .noMatch
    | e0 :: _ =>
      if e0.type = MessageEntity.BOT_COMMAND ∧ e0.offset = 0 then
        let command := pySlice message.text 1 e0.length
        let args := (pySplitWs message.text).drop 1
        let parts := pySplitChar command '@' ++ [message.bot.username]
        if strLower (parts.getD 0 "") ∈ h.command ∧
            strLower (parts.getD 1 "") = strLower message.bot.username then
          let filter_result := h.filters u
          if filter_result.truthy then .matched args filter_result else .rejected
        else .noMatch
      else .noMatch

/-- The slice of CallbackContext written by these handlers: `args` and the
keys merged in from a dict-valued filter result. -/
structure Ctx where
  args : List String
  extra : List (String × String)
  deriving Repr, DecidableEq

/-- `dict.update`-style merge of `upd` into `base` (keys of `upd` win). -/
def dictUpdate (base upd : List (String × String)) : List (String × String) :=
  base.filter (fun kv => upd.all fun kv2 => kv2.1 ≠ kv.1) ++ upd

/-- `CommandHandler.collect_additional_context`: store the args and merge a
dict-valued filter result into the context. -/
def CommandHandler.collect_additional_context (ctx : Ctx)
    (check_result : List String × FilterResult) : Ctx :=
  let ctx1 := { ctx with args := check_result.1 }
  match check_result.2 with
  | .dict d => { ctx1 with extra := dictUpdate ctx1.extra d }
  | _ => ctx1

/-- PrefixHandler: the configuration its matching logic reads.  As in
`CommandHandler`, `filters` is the attached filter chain as one function
and the opaque user callback is omitted. -/
structure PrefixHandler where
  prefixes : List String
  command : List String
  filters : Update → FilterResult

/-- `PrefixHandler.__init__` for list arguments (a single-string argument
behaves as the singleton list): first run the parent
`CommandHandler.__init__` with the placeholder command `'nocommand'`, then
overwrite `self.command` with the cross product, each entry the
concatenation `prefix.lower() + command.lower()`, with no validation. -/
def PrefixHandler.init (prefixes command : List String)
    (filters : Update → FilterResult) : Except String PrefixHandler :=
  (CommandHandler.init ["nocommand"] filters).map
    fun _ =>
      { prefixes := prefixes
        command := prefixes.flatMap fun x => command.map fun y => strLower x ++ strLower y
        filters := filters }

/-- `PrefixHandler.check_update`.  The subscript `text_list[0]` is taken
before anything guards against `text_list` being empty, so a message whose
text is non-empty but all whitespace raises `IndexError`; the embedding
returns that as `Except.error PyError.indexError`. -/
def PrefixHandler.check_update (h : PrefixHandler) (u : Update) :
    Except PyError CheckResult :=
  match u.effective_message with
  | none => .ok .noMatch
  | some message =>
    if message.text ≠ "" then
      let text_list := pySplitWs message.text
      match text_list with
      | [] => .error .indexError
      | t0 :: rest =>
        if strLower t0 ∈ h.command then
          let filter_result := h.filters u
          if filter_result.truthy then .ok (.matched rest filter_result)
          else .ok .rejected
        else .ok .noMatch
    else .ok .noMatch

/-- `PrefixHandler.collect_additional_context` (the source duplicates the
body of the parent's method verbatim). -/
def PrefixHandler.collect_additional_context (ctx : Ctx)
    (check_result : List String × FilterResult) : Ctx :=
  let ctx1 := { ctx with args := check_result.1 }
  match check_result.2 with
  | .dict d => { ctx1 with extra := dictUpdate ctx1.extra d }
  | _ => ctx1

/-- A compiled regex of the shape exercised by this code base: an optional
leading `^` anchor followed by literal characters.  `re.compile` on such a
pattern string is `reCompile`. -/
structure RePattern where
  anchored : Bool
  lit : String
  deriving Repr, DecidableEq

/-- `re.compile` for patterns made of an optional leading `^` anchor and
literal characters. -/
def reCompile (s : String) : RePattern :=
  match s.toList with
  | c :: rest =>
    if c = '^' then { anchored := true, lit := String.mk rest }
    else { anchored := false, lit := s }
  | [] => { anchored := false, lit := s }

/-- A regex match object: the span of the match inside the subject. -/
structure ReMatch where
  start : Nat
  stop : Nat
  deriving Repr, DecidableEq

/-- Python `re.match(p, s)`: the pattern is tried at position 0 only (it is
anchored at the start of the subject, unlike `re.search`, and unlike
`re.fullmatch` it need not consume the whole subject); a leading `^` in the
pattern is redundant under `match`. -/
def reMatch (p : RePattern) (s : String) : Option ReMatch :=
  if p.lit.toList.isPrefixOf s.toList then some { start := 0, stop := p.lit.toList.length }
  else none

/-- The value returned by `InlineQueryHandler.check_update`: Python `None`,
Python `True` (no pattern configured), or a match object. -/
inductive IQResult where
  | noMatch
  | accepted
  | matchedRe (m : ReMatch)
  deriving Repr, DecidableEq

/-- InlineQueryHandler: the configuration its matching logic reads (the
opaque user callback is omitted). -/
structure InlineQueryHandler where
  pattern : Option RePattern
  deriving Repr, DecidableEq

/-- `InlineQueryHandler.check_update`. -/
def InlineQueryHandler.check_update (h : InlineQueryHandler) (u : Update) :
    IQResult :=
  match u.inline_query with
  | none => .noMatch
  | some iq =>
    match h.pattern with
    | some p =>
      if iq.query ≠ "" then
        match reMatch p iq.query with
        | some m => .matchedRe m
        | none => .noMatch
      else .noMatch
    | none => .accepted

/-- The slice of CallbackContext written by InlineQueryHandler: the field
`re_matches` models the Python attribute `context.matches` (`matches` is a
reserved word in Lean); it is unset (`none`) until
`collect_additional_context` assigns it. -/
structure IQContext where
  re_matches : Option (List IQResult)
  deriving Repr, DecidableEq

/-- `InlineQueryHandler.collect_additional_context`: when a pattern is
configured (and only then) set `context.matches` to the one-element list
holding the check result. -/
def InlineQueryHandler.collect_additional_context (h : InlineQueryHandler)
    (ctx : IQContext) (check_result : IQResult) : IQContext :=
  match h.pattern with
  | some _ => { ctx with re_matches := some [check_result] }
  | none => ctx

/-- A session record held by the callback registry; `model_data` is the
opaque view-model payload, modelled as a string. -/
structure CallbackItem where
  model_data : String
  deriving Repr, DecidableEq

/-- The callback registry collaborator (`dispatcher.callback_manager`):
`peek_action` non-destructively resolves callback data to an action id,
`lookup_chat_bound_callback` retrieves the session record bound to a chat
and data string. -/
structure CallbackManager where
  peek_action : String → Option String
  lookup_chat_bound_callback : Int → String → Option CallbackItem

/-- The dispatcher as seen by `InlineActionHandler`: only its
`callback_manager` is read. -/
structure TDispatcher where
  callback_manager : CallbackManager

/-- InlineActionHandler: the configuration its matching logic reads
(`self.action_id`; the opaque user callback is omitted). -/
structure InlineActionHandler where
  action_id : String
  deriving Repr, DecidableEq

/-- `InlineActionHandler.check_update`: Python returns `None` when there is
no callback query or its data is falsy, else the boolean
`peek_action(data) == self.action_id`. -/
def InlineActionHandler.check_update (h : InlineActionHandler) (u : Update)
    (d : TDispatcher) : Option Bool :=
  match u.callback_query with
  | none => none
  | some cq =>
    if cq.data ≠ "" then
      some (decide (d.callback_manager.peek_action cq.data = some h.action_id))
    else none

/-- The slice of CallbackContext written by InlineActionHandler:
`view_model` is unset (`none`) until `collect_additional_context` assigns
it. -/
structure FlowContext where
  view_model : Option String
  deriving Repr, DecidableEq

/-- `InlineActionHandler.collect_additional_context`: read the effective
chat id, look the bound callback up, and store its `model_data` as the
view model.  When `effective_chat` is `None` or the lookup returns `None`,
the attribute access on `None` raises `AttributeError`; the embedding
returns that as `Except.error PyError.attributeError`. -/
def InlineActionHandler.collect_additional_context (_h : InlineActionHandler)
    (ctx : FlowContext) (u : Update) (d : TDispatcher) :
    Except PyError FlowContext :=
  match u.effective_chat_id with
  | none => .error .attributeError
  | some chat_id =>
    match u.callback_query with
    | none => .error .attributeError
    | some cq =>
      match d.callback_manager.lookup_chat_bound_callback chat_id cq.data with
      | none => .error .attributeError
      | some callback_item => .ok { ctx with view_model := some callback_item.model_data }

/-- The character class `[a-z0-9_]` of the spec's validation regex, matched
case-insensitively against the original (not yet lower-cased) character
(`A`-`Z` are code points 65-90). -/
def isCommandCharCI (c : Char) : Bool :=
  decide ((97 ≤ c.toNat ∧ c.toNat ≤ 122) ∨ (65 ≤ c.toNat ∧ c.toNat ≤ 90) ∨
    (48 ≤ c.toNat ∧ c.toNat ≤ 57) ∨ c.toNat = 95)

/-- The spec's construction-time validation rule, stated in its own words:
the command token matches `^[a-z0-9_]{1,32}$` case-insensitively. -/
def validBotCommandCI (s : String) : Bool :=
  decide (1 ≤ s.toList.length) && decide (s.toList.length ≤ 32) && s.toList.all isCommandCharCI

/-- An update with no payload populated; concrete updates for the theorems
below are built from it. -/
def emptyUpdate : Update :=
  { message := none, edited_message := none, channel_post := none,
    edited_channel_post := none, inline_query := none, callback_query := none }

/-- A filter chain that matches every update with a plain boolean `True`. -/
def filterTrue : Update → FilterResult := fun _ => .bool true

/-- A filter chain that vetoes every update (`False`). -/
def filterFalse : Update → FilterResult := fun _ => .bool false

/-- An update carrying one new message with the given text, entities and
bot username. -/
def mkMessageUpdate (text : String) (ents : List MessageEntity) (uname : String) : Update :=
  { emptyUpdate with
    message := some { text := text, entities := ents, bot := { username := uname }, chat_id := 0 } }

/-- An update carrying one inline query with the given query text. -/
def mkInlineQueryUpdate (q : String) : Update :=
  { emptyUpdate with inline_query := some { query := q } }

/-- An update carrying one callback query with the given data, attached to
a message in the given chat. -/
def mkCallbackUpdate (data : String) (chatId : Int) : Update :=
  { emptyUpdate with
    callback_query := some
      { data := data,
        message := some { text := "", entities := [], bot := { username := "" }, chat_id := chatId } } }

/-- A CommandHandler for the single command `start` whose filter chain
matches everything. -/
def startHandler : CommandHandler :=
  { command := ["start"], filters := filterTrue }

/-- The PrefixHandler produced by `PrefixHandler.init ["!", "#"] ["test"]`
with an all-matching filter chain. -/
def bangTestHandler : PrefixHandler :=
  { prefixes := ["!", "#"], command := ["!test", "#test"], filters := filterTrue }

/-- The callback registry used by the concrete InlineActionHandler
scenario: the token `tok123` resolves to action `A`, and no chat-bound
callback record exists. -/
def tokManager : CallbackManager :=
  { peek_action := fun s => if s = "tok123" then some "A" else none,
    lookup_chat_bound_callback := fun _ _ => none }

/-- A dispatcher holding `tokManager`. -/
def tokDispatcher : TDispatcher := { callback_manager := tokManager }

/-- An InlineActionHandler configured for action `A`. -/
def actionHandlerA : InlineActionHandler := { action_id := "A" }

/-- `str.split(c)` never crosses a separator while the separator is absent
from the remaining input: the whole input becomes one field. -/
theorem pySplitCharAux_of_not_mem (c : Char) (l : List Char) (acc : List Char)
    (h : c ∉ l) : pySplitCharAux c l acc = [String.mk (acc ++ l)] := by
  induction l generalizing acc with
  | nil => simp [pySplitCharAux]
  | cons x xs ih =>
    rw [pySplitCharAux]
    have hx : ¬ x = c := by
      rintro rfl; exact h (List.mem_cons_self x xs)
    rw [if_neg hx, ih _ (fun hm => h (List.mem_cons_of_mem _ hm))]
    simp

/-- `str.split(c)` cuts at the first occurrence of the separator. -/
theorem pySplitCharAux_found (c : Char) (l₁ l₂ : List Char) (acc : List Char)
    (h : c ∉ l₁) :
    pySplitCharAux c (l₁ ++ c :: l₂) acc =
      String.mk (acc ++ l₁) :: pySplitCharAux c l₂ [] := by
  induction l₁ generalizing acc with
  | nil => simp [pySplitCharAux]
  | cons x xs ih =>
    rw [List.cons_append, pySplitCharAux]
    have hx : ¬ x = c := by
      rintro rfl; exact h (List.mem_cons_self x xs)
    rw [if_neg hx, ih _ (fun hm => h (List.mem_cons_of_mem _ hm))]
    simp

/-- `s.split(c) = [s]` when `c` does not occur in `s`. -/
theorem pySplitChar_of_not_mem (s : String) (c : Char) (h : c ∉ s.toList) :
    pySplitChar s c = [s] := by
  rw [pySplitChar, pySplitCharAux_of_not_mem c _ _ h]
  simp [String.toList]

/-- `(a + sep + b).split(c) = [a] + b.split(c)` when `sep` is the
one-character string of `c` and `c` does not occur in `a`. -/
theorem pySplitChar_found (a b sep : String) (c : Char)
    (hsep : sep.toList = [c]) (h : c ∉ a.toList) :
    pySplitChar (a ++ sep ++ b) c = a :: pySplitChar b c := by
  have hdata : (a ++ sep ++ b).toList = a.toList ++ c :: b.toList := by
    simp [String.toList, String.data_append]
    have := hsep
    simp [String.toList] at this
    simp [this]
  rw [pySplitChar, hdata, pySplitCharAux_found c _ _ [] h]
  simp [pySplitChar, String.toList]

/-- `Char.ofNat` round-trips through `toNat` below the surrogate range. -/
theorem char_toNat_ofNat_of_lt (n : Nat) (h : n < 55296) : (Char.ofNat n).toNat = n := by
  have hv : n.isValidChar := Or.inl h
  rw [Char.ofNat, dif_pos hv]
  rfl

/-- Lower-casing first and then testing `[\da-z_]` is the same as testing
`[a-z0-9_]` case-insensitively on the original character. -/
theorem isCommandChar_toLower (c : Char) :
    isCommandChar c.toLower = isCommandCharCI c := by
  by_cases h : c.toNat ≥ 65 ∧ c.toNat ≤ 90
  · rw [Char.toLower, if_pos h]
    rw [isCommandChar, isCommandCharCI, char_toNat_ofNat_of_lt _ (by omega)]
    rw [decide_eq_decide]
    omega
  · rw [Char.toLower, if_neg h]
    rw [isCommandChar, isCommandCharCI, decide_eq_decide]
    omega

/-- The code's validation of the lower-cased command equals the spec's
case-insensitive validation of the original command token. -/
theorem validBotCommand_strLower (s : String) :
    validBotCommand (strLower s) = validBotCommandCI s := by
  have hl : (strLower s).toList = s.toList.map Char.toLower := rfl
  rw [validBotCommand, validBotCommandCI, hl]
  simp only [List.length_map, List.all_map]
  have : s.toList.all (isCommandChar ∘ Char.toLower) = s.toList.all isCommandCharCI := by
    induction s.toList with
    | nil => rfl
    | cons x xs ih => simp [List.all_cons, ih, Function.comp, isCommandChar_toLower]
  rw [this]

/-- `PrefixHandler.init` always succeeds and returns the handler whose
command set is the lower-cased cross product (the placeholder command
`nocommand` passed to the parent constructor always validates). -/
theorem PrefixHandler_init_eq (prefixes command : List String)
    (f : Update → FilterResult) :
    PrefixHandler.init prefixes command f =
      Except.ok
        { prefixes := prefixes
          command := prefixes.flatMap fun x => command.map fun y => strLower x ++ strLower y
          filters := f } := rfl

/-- C1: for an update whose effective message's first entity is a
bot-command entity at offset 0, with the command substring
`text[1:length]`, `CommandHandler.check_update` accepts (returns Matched,
given a truthy filter chain) when the substring carries no `@` segment, or
an `@` segment whose part after `@` equals the bot's own username
case-insensitively, and the command name is in the configured set; it
returns NoMatch when the `@` segment names a different bot. -/
theorem check_update_bot_username_disambiguation
    (h : CommandHandler) (u : Update) (m : Message) (e0 : MessageEntity)
    (es : List MessageEntity) (name bot : String)
    (hm : u.effective_message = some m)
    (he : m.entities = e0 :: es)
    (ht : e0.type = MessageEntity.BOT_COMMAND)
    (ho : e0.offset = 0)
    (hname : '@' ∉ name.toList) :
    (pySlice m.text 1 e0.length = name →
      strLower name ∈ h.command →
      (h.filters u).truthy = true →
      h.check_update u = .matched ((pySplitWs m.text).drop 1) (h.filters u)) ∧
    (pySlice m.text 1 e0.length = name ++ "@" ++ bot →
      '@' ∉ bot.toList →
      strLower name ∈ h.command →
      strLower bot = strLower m.bot.username →
      (h.filters u).truthy = true →
      h.check_update u = .matched ((pySplitWs m.text).drop 1) (h.filters u)) ∧
    (pySlice m.text 1 e0.length = name ++ "@" ++ bot →
      '@' ∉ bot.toList →
      strLower bot ≠ strLower m.bot.username →
      h.check_update u = .noMatch) := by
  refine ⟨?_, ?_, ?_⟩
  · intro hs hmem htr
    simp only [CommandHandler.check_update, hm, he, ht, ho, and_self, if_true, hs]
    rw [pySplitChar_of_not_mem _ _ hname]
    simp [hmem, htr]
  · intro hs hbot hmem hlow htr
    simp only [CommandHandler.check_update, hm, he, ht, ho, and_self, if_true, hs]
    rw [pySplitChar_found name bot "@" '@' rfl hname]
    rw [pySplitChar_of_not_mem _ _ hbot]
    simp [hmem, hlow, htr]
  · intro hs hbot hlow
    simp only [CommandHandler.check_update, hm, he, ht, ho, and_self, if_true, hs]
    rw [pySplitChar_found name bot "@" '@' rfl hname]
    rw [pySplitChar_of_not_mem _ _ hbot]
    simp [hlow]

/-- C1 witness: a handler for `start` (bot username `botname`) matches
`/start` and `/start@botname` with empty args, and gives NoMatch on
`/start@othername`. -/
theorem check_update_bot_username_disambiguation_witness :
    startHandler.check_update
        (mkMessageUpdate "/start"
          [{ type := MessageEntity.BOT_COMMAND, offset := 0, length := 6 }] "botname")
      = .matched [] (.bool true) ∧
    startHandler.check_update
        (mkMessageUpdate "/start@botname"
          [{ type := MessageEntity.BOT_COMMAND, offset := 0, length := 14 }] "botname")
      = .matched [] (.bool true) ∧
    startHandler.check_update
        (mkMessageUpdate "/start@othername"
          [{ type := MessageEntity.BOT_COMMAND, offset := 0, length := 16 }] "botname")
      = .noMatch := by
  refine ⟨?_, ?_, ?_⟩
  · exact (check_update_bot_username_disambiguation startHandler
      (mkMessageUpdate "/start"
        [{ type := MessageEntity.BOT_COMMAND, offset := 0, length := 6 }] "botname")
      { text := "/start",
        entities := [{ type := MessageEntity.BOT_COMMAND, offset := 0, length := 6 }],
        bot := { username := "botname" }, chat_id := 0 }
      { type := MessageEntity.BOT_COMMAND, offset := 0, length := 6 } [] "start" ""
      rfl rfl rfl rfl (by decide)).1 (by decide) (by decide) rfl
  · exact (check_update_bot_username_disambiguation startHandler
      (mkMessageUpdate "/start@botname"
        [{ type := MessageEntity.BOT_COMMAND, offset := 0, length := 14 }] "botname")
      { text := "/start@botname",
        entities := [{ type := MessageEntity.BOT_COMMAND, offset := 0, length := 14 }],
        bot := { username := "botname" }, chat_id := 0 }
      { type := MessageEntity.BOT_COMMAND, offset := 0, length := 14 } [] "start" "botname"
      rfl rfl rfl rfl (by decide)).2.1 (by decide) (by decide) (by decide) rfl rfl
  · exact (check_update_bot_username_disambiguation startHandler
      (mkMessageUpdate "/start@othername"
        [{ type := MessageEntity.BOT_COMMAND, offset := 0, length := 16 }] "botname")
      { text := "/start@othername",
        entities := [{ type := MessageEntity.BOT_COMMAND, offset := 0, length := 16 }],
        bot := { username := "botname" }, chat_id := 0 }
      { type := MessageEntity.BOT_COMMAND, offset := 0, length := 16 } [] "start" "othername"
      rfl rfl rfl rfl (by decide)).2.2 (by decide) (by decide) (by decide)

/-- C2: when the command shape matches a CommandHandler (and the first
token matches a PrefixHandler) but the attached filter chain evaluates
falsy, `check_update` returns the distinct Rejected value (Python `False`),
not the NoMatch value (Python `None`); a truthy filter result yields
Matched carrying the args and the filter result. -/
theorem filters_veto_rejected_not_noMatch
    (hc : CommandHandler) (ph : PrefixHandler) (u v : Update)
    (m mv : Message) (e0 : MessageEntity) (es : List MessageEntity)
    (name t0 : String) (rest : List String)
    (hm : u.effective_message = some m)
    (he : m.entities = e0 :: es)
    (ht : e0.type = MessageEntity.BOT_COMMAND)
    (ho : e0.offset = 0)
    (hs : pySlice m.text 1 e0.length = name)
    (hname : '@' ∉ name.toList)
    (hmem : strLower name ∈ hc.command)
    (hv : v.effective_message = some mv)
    (hsplit : pySplitWs mv.text = t0 :: rest)
    (hmem2 : strLower t0 ∈ ph.command) :
    ((hc.filters u).truthy = false → hc.check_update u = .rejected) ∧
    ((hc.filters u).truthy = true →
      hc.check_update u = .matched ((pySplitWs m.text).drop 1) (hc.filters u)) ∧
    ((ph.filters v).truthy = false → ph.check_update v = .ok .rejected) ∧
    ((ph.filters v).truthy = true →
      ph.check_update v = .ok (.matched rest (ph.filters v))) := by
  have htext : mv.text ≠ "" := by
    intro hempty
    rw [hempty] at hsplit
    simp [pySplitWs, pySplitWsAux] at hsplit
  refine ⟨?_, ?_, ?_, ?_⟩
  · intro htr
    simp only [CommandHandler.check_update, hm, he, ht, ho, and_self, if_true, hs]
    rw [pySplitChar_of_not_mem _ _ hname]
    simp [hmem, htr]
  · intro htr
    simp only [CommandHandler.check_update, hm, he, ht, ho, and_self, if_true, hs]
    rw [pySplitChar_of_not_mem _ _ hname]
    simp [hmem, htr]
  · intro htr
    simp only [PrefixHandler.check_update, hv, htext, ne_eq, not_false_eq_true, if_true, hsplit]
    simp [hmem2, htr]
  · intro htr
    simp only [PrefixHandler.check_update, hv, htext, ne_eq, not_false_eq_true, if_true, hsplit]
    simp [hmem2, htr]

/-- C2 witness: with an all-vetoing filter chain, a `start` handler on
`/start` returns Rejected (not NoMatch), and a `!test` PrefixHandler on
`!test` returns Rejected (not NoMatch). -/
theorem filters_veto_rejected_not_noMatch_witness :
    CommandHandler.check_update { command := ["start"], filters := filterFalse }
        (mkMessageUpdate "/start"
          [{ type := MessageEntity.BOT_COMMAND, offset := 0, length := 6 }] "botname")
      = .rejected ∧
    PrefixHandler.check_update
        { prefixes := ["!"], command := ["!test"], filters := filterFalse }
        (mkMessageUpdate "!test" [] "botname")
      = .ok .rejected := by
  have h := filters_veto_rejected_not_noMatch
    { command := ["start"], filters := filterFalse }
    { prefixes := ["!"], command := ["!test"], filters := filterFalse }
    (mkMessageUpdate "/start"
      [{ type := MessageEntity.BOT_COMMAND, offset := 0, length := 6 }] "botname")
    (mkMessageUpdate "!test" [] "botname")
    { text := "/start",
      entities := [{ type := MessageEntity.BOT_COMMAND, offset := 0, length := 6 }],
      bot := { username := "botname" }, chat_id := 0 }
    { text := "!test", entities := [], bot := { username := "botname" }, chat_id := 0 }
    { type := MessageEntity.BOT_COMMAND, offset := 0, length := 6 } [] "start" "!test" []
    rfl rfl rfl rfl (by decide) (by decide) (by decide) rfl (by decide) (by decide)
  exact ⟨h.1 rfl, h.2.2.1 rfl⟩

/-- C3 counterexample: an InlineQueryHandler with no pattern accepts an
inline-query update whose query text is empty, so acceptance does not
require non-empty query text in the no-pattern case. -/
theorem no_pattern_accepts_empty_query_cex :
    InlineQueryHandler.check_update { pattern := none } (mkInlineQueryUpdate "") = .accepted ∧
    (mkInlineQueryUpdate "").inline_query = some { query := "" } := ⟨rfl, rfl⟩

/-- C3 amended: for updates carrying a non-null inline query, a handler
with a configured pattern accepts only when the query text is non-empty;
a handler with no pattern accepts every such update regardless of the
query text (including the empty text). -/
theorem inline_query_acceptance_amended (h : InlineQueryHandler) (u : Update)
    (iq : InlineQuery) (hu : u.inline_query = some iq) :
    (∀ p, h.pattern = some p → h.check_update u ≠ .noMatch → iq.query ≠ "") ∧
    (h.pattern = none → h.check_update u = .accepted) := by
  constructor
  · intro p hp hacc hempty
    apply hacc
    simp only [InlineQueryHandler.check_update, hu, hp, hempty]
    simp
  · intro hp
    simp only [InlineQueryHandler.check_update, hu, hp]

/-- C3 amended witness: a `^foo` handler accepting query `foobar` implies
that text is non-empty, and a no-pattern handler accepts query `x`. -/
theorem inline_query_acceptance_amended_witness :
    ("foobar" : String) ≠ "" ∧
    InlineQueryHandler.check_update { pattern := none } (mkInlineQueryUpdate "x")
      = .accepted := by
  constructor
  · exact (inline_query_acceptance_amended { pattern := some (reCompile "^foo") }
      (mkInlineQueryUpdate "foobar") { query := "foobar" } rfl).1
      (reCompile "^foo") rfl (by decide)
  · exact (inline_query_acceptance_amended { pattern := none }
      (mkInlineQueryUpdate "x") { query := "x" } rfl).2 rfl

/-- C4: when InlineActionHandler has accepted a callback-query update (the
registry's `peek_action` resolved the data to the handler's configured
action id) but `lookup_chat_bound_callback` then returns no record,
`collect_additional_context` raises (`AttributeError` from the attribute
access on `None`), surfacing the inconsistency to the host instead of
producing a context with an empty view model for the callback. -/
theorem accept_then_missing_record_raises
    (h : InlineActionHandler) (u : Update) (d : TDispatcher)
    (cq : CallbackQuery)
    (hcq : u.callback_query = some cq)
    (hdata : cq.data ≠ "")
    (hpeek : d.callback_manager.peek_action cq.data = some h.action_id) :
    h.check_update u d = some true ∧
    (∀ cid, u.effective_chat_id = some cid →
      d.callback_manager.lookup_chat_bound_callback cid cq.data = none →
      ∀ ctx, h.collect_additional_context ctx u d = .error .attributeError) ∧
    (∀ cid, u.effective_chat_id = some cid →
      d.callback_manager.lookup_chat_bound_callback cid cq.data = none →
      ∀ ctx fc, h.collect_additional_context ctx u d ≠ .ok fc) := by
  refine ⟨?_, ?_, ?_⟩
  · simp only [InlineActionHandler.check_update, hcq, hdata, ne_eq, not_false_eq_true,
      if_true, hpeek]
    simp
  · intro cid hcid hlook ctx
    simp only [InlineActionHandler.collect_additional_context, hcid, hcq, hlook]
  · intro cid hcid hlook ctx fc
    simp only [InlineActionHandler.collect_additional_context, hcid, hcq, hlook]
    exact fun hcontra => Except.noConfusion hcontra

/-- C4 witness: with `tok123` resolving to action `A` and an empty bound
registry, the handler for `A` accepts the update and the context
collection step errors instead of producing a context. -/
theorem accept_then_missing_record_raises_witness :
    actionHandlerA.check_update (mkCallbackUpdate "tok123" 5) tokDispatcher = some true ∧
    actionHandlerA.collect_additional_context { view_model := none }
        (mkCallbackUpdate "tok123" 5) tokDispatcher
      = .error .attributeError := by
  have h := accept_then_missing_record_raises actionHandlerA
    (mkCallbackUpdate "tok123" 5) tokDispatcher
    { data := "tok123",
      message := some { text := "", entities := [], bot := { username := "" }, chat_id := 5 } }
    rfl (by decide) rfl
  exact ⟨h.1, h.2.1 5 rfl rfl { view_model := none }⟩

/-- C5: a PrefixHandler built by construction carries the command set
equal to the lower-cased concatenations prefix+command over the cross
product, and `check_update` accepts exactly when the lower-cased first
whitespace-delimited token of the message text is in that set — no entity
or offset requirement and no bot-name disambiguation (the update's
entities and bot username are unconstrained here). -/
theorem PrefixHandler_cross_product_recognition
    (prefixes command : List String) (f : Update → FilterResult)
    (ph : PrefixHandler)
    (hinit : PrefixHandler.init prefixes command f = .ok ph)
    (u : Update) (m : Message) (t0 : String) (rest : List String)
    (hm : u.effective_message = some m)
    (hsplit : pySplitWs m.text = t0 :: rest) :
    ph.command = (prefixes.flatMap fun x => command.map fun y => strLower x ++ strLower y) ∧
    (strLower t0 ∈ ph.command → (ph.filters u).truthy = true →
      ph.check_update u = .ok (.matched rest (ph.filters u))) ∧
    (strLower t0 ∉ ph.command → ph.check_update u = .ok .noMatch) := by
  rw [PrefixHandler_init_eq] at hinit
  injection hinit with hinit
  subst hinit
  have htext : m.text ≠ "" := by
    intro hempty
    rw [hempty] at hsplit
    simp [pySplitWs, pySplitWsAux] at hsplit
  refine ⟨rfl, ?_, ?_⟩
  · intro hmem htr
    simp only [PrefixHandler.check_update, hm, htext, ne_eq, not_false_eq_true, if_true, hsplit]
    simp [hmem, htr]
  · intro hmem
    simp only [PrefixHandler.check_update, hm, htext, ne_eq, not_false_eq_true, if_true, hsplit]
    simp [hmem]

/-- C5 witness: prefixes `!`, `#` with command `test` give the command set
containing exactly `!test` and `#test`; the handler matches `!test` and
`#test hello` and gives NoMatch on `test` and `!help`. -/
theorem PrefixHandler_cross_product_recognition_witness :
    bangTestHandler.check_update (mkMessageUpdate "!test" [] "b")
      = .ok (.matched [] (.bool true)) ∧
    bangTestHandler.check_update (mkMessageUpdate "#test hello" [] "b")
      = .ok (.matched ["hello"] (.bool true)) ∧
    bangTestHandler.check_update (mkMessageUpdate "test" [] "b") = .ok .noMatch ∧
    bangTestHandler.check_update (mkMessageUpdate "!help" [] "b") = .ok .noMatch := by
  refine ⟨?_, ?_, ?_, ?_⟩
  · exact (PrefixHandler_cross_product_recognition ["!", "#"] ["test"] filterTrue
      bangTestHandler rfl (mkMessageUpdate "!test" [] "b")
      { text := "!test", entities := [], bot := { username := "b" }, chat_id := 0 }
      "!test" [] rfl (by decide)).2.1 (by decide) rfl
  · exact (PrefixHandler_cross_product_recognition ["!", "#"] ["test"] filterTrue
      bangTestHandler rfl (mkMessageUpdate "#test hello" [] "b")
      { text := "#test hello", entities := [], bot := { username := "b" }, chat_id := 0 }
      "#test" ["hello"] rfl (by decide)).2.1 (by decide) rfl
  · exact (PrefixHandler_cross_product_recognition ["!", "#"] ["test"] filterTrue
      bangTestHandler rfl (mkMessageUpdate "test" [] "b")
      { text := "test", entities := [], bot := { username := "b" }, chat_id := 0 }
      "test" [] rfl (by decide)).2.2 (by decide)
  · exact (PrefixHandler_cross_product_recognition ["!", "#"] ["test"] filterTrue
      bangTestHandler rfl (mkMessageUpdate "!help" [] "b")
      { text := "!help", entities := [], bot := { username := "b" }, chat_id := 0 }
      "!help" [] rfl (by decide)).2.2 (by decide)

/-- C6: constructing a CommandHandler raises `ValueError` if and only if
some configured command token fails `^[a-z0-9_]{1,32}$` matched
case-insensitively; in particular the command `ab cd` raises.  In the
embedding, construction is the only failing operation — `check_update` is
total — so the failure is a setup-time one. -/
theorem command_validation_setup_time (command : List String)
    (f : Update → FilterResult) :
    ((∃ e, CommandHandler.init command f = .error e) ↔
      ∃ c ∈ command, validBotCommandCI c = false) ∧
    (∃ e, CommandHandler.init ["ab cd"] f = .error e) := by
  constructor
  · rw [CommandHandler.init]
    cases hall : (command.map strLower).all validBotCommand with
    | true =>
      simp only [hall, if_true]
      constructor
      · rintro ⟨e, he⟩
        exact Except.noConfusion he
      · rintro ⟨c, hc, hbad⟩
        rw [List.all_eq_true] at hall
        have := hall (strLower c) (List.mem_map_of_mem _ hc)
        rw [validBotCommand_strLower] at this
        rw [hbad] at this
        exact Bool.noConfusion this
    | false =>
      simp only [hall, Bool.false_eq_true, if_false]
      constructor
      · rintro ⟨e, _⟩
        rw [List.all_eq_false] at hall
        obtain ⟨x, hx, hbad⟩ := hall
        rw [List.mem_map] at hx
        obtain ⟨c, hc, rfl⟩ := hx
        rw [validBotCommand_strLower] at hbad
        exact ⟨c, hc, by simpa using hbad⟩
      · intro _
        exact ⟨_, rfl⟩
  · exact ⟨_, rfl⟩

/-- C6 witness: a concrete construction with command `ab cd` fails. -/
theorem command_validation_setup_time_witness :
    ∃ e, CommandHandler.init ["ab cd"] filterTrue = .error e :=
  (command_validation_setup_time ["ok"] filterTrue).2

/-- C7: with a pattern configured and a non-null, non-empty inline query,
matching is anchored at the start of the query text: any produced match
starts at position 0; `^foo` accepts `foobar` with span starting at 0 and
rejects `barfoo`; on accept, `collect_additional_context` sets
`context.matches` to the one-element sequence holding the match, and a
no-pattern handler leaves the context untouched. -/
theorem inline_query_anchored_match_and_context
    (h : InlineQueryHandler) (p : RePattern) (u : Update)
    (iq : InlineQuery) (hp : h.pattern = some p) (hu : u.inline_query = some iq) :
    (∀ m, h.check_update u = .matchedRe m → m.start = 0) ∧
    InlineQueryHandler.check_update { pattern := some (reCompile "^foo") }
      (mkInlineQueryUpdate "foobar") = .matchedRe { start := 0, stop := 3 } ∧
    InlineQueryHandler.check_update { pattern := some (reCompile "^foo") }
      (mkInlineQueryUpdate "barfoo") = .noMatch ∧
    (∀ ctx r, (h.collect_additional_context ctx r).re_matches = some [r]) ∧
    (∀ h2 : InlineQueryHandler, h2.pattern = none →
      ∀ ctx r, h2.collect_additional_context ctx r = ctx) := by
  refine ⟨?_, by decide, by decide, ?_, ?_⟩
  · intro m hcheck
    rw [InlineQueryHandler.check_update] at hcheck
    simp only [hu, hp] at hcheck
    by_cases hq : iq.query = ""
    · simp [hq] at hcheck
    · simp only [hq, ne_eq, not_false_eq_true, if_true] at hcheck
      cases hre : reMatch p iq.query with
      | none => rw [hre] at hcheck; exact IQResult.noConfusion hcheck
      | some mm =>
        rw [hre] at hcheck
        simp only [IQResult.matchedRe.injEq] at hcheck
        subst hcheck
        rw [reMatch] at hre
        split at hre
        · simp only [Option.some.injEq] at hre
          rw [← hre]
        · exact Option.noConfusion hre
  · intro ctx r
    simp only [InlineQueryHandler.collect_additional_context, hp]
  · intro h2 hp2 ctx r
    simp only [InlineQueryHandler.collect_additional_context, hp2]

/-- C7 witness: applying the theorem at the `^foo` handler and query
`foobar` — the produced match starts at 0 and is stored as the
one-element `matches` sequence. -/
theorem inline_query_anchored_match_and_context_witness :
    (InlineQueryHandler.collect_additional_context { pattern := some (reCompile "^foo") }
        { re_matches := none } (.matchedRe { start := 0, stop := 3 })).re_matches
      = some [.matchedRe { start := 0, stop := 3 }] ∧
    ({ start := 0, stop := 3 } : ReMatch).start = 0 := by
  have h := inline_query_anchored_match_and_context
    { pattern := some (reCompile "^foo") } (reCompile "^foo")
    (mkInlineQueryUpdate "foobar") { query := "foobar" } rfl rfl
  exact ⟨h.2.2.2.1 { re_matches := none } (.matchedRe { start := 0, stop := 3 }),
    h.1 { start := 0, stop := 3 } (by decide)⟩

/-- C8: whenever `CommandHandler.check_update` accepts, the args it
carries equal the message text split on whitespace runs with the leading
command token removed, and `collect_additional_context` stores exactly
that list in `context.args`. -/
theorem args_extraction_and_context (h : CommandHandler) (u : Update) :
    (∀ args fr, h.check_update u = .matched args fr →
      ∃ m, u.effective_message = some m ∧ args = (pySplitWs m.text).drop 1) ∧
    (∀ ctx args fr,
      (CommandHandler.collect_additional_context ctx (args, fr)).args = args) := by
  constructor
  · intro args fr hcheck
    rw [CommandHandler.check_update] at hcheck
    cases hu : u.effective_message with
    | none => simp only [hu] at hcheck; exact CheckResult.noConfusion hcheck
    | some m =>
      simp only [hu] at hcheck
      refine ⟨m, rfl, ?_⟩
      cases hent : m.entities with
      | nil => simp only [hent] at hcheck; exact CheckResult.noConfusion hcheck
      | cons e0 es =>
        simp only [hent] at hcheck
        split at hcheck
        · split at hcheck
          · split at hcheck
            · simp only [CheckResult.matched.injEq] at hcheck
              exact hcheck.1.symm
            · simp at hcheck
          · simp at hcheck
        · simp at hcheck
  · intro ctx args fr
    cases fr <;> rfl

/-- C8 witness: `/start` yields args `[]` and `/start hello world` yields
args `["hello", "world"]`, which the context collection step stores
unchanged. -/
theorem args_extraction_and_context_witness :
    (∃ m, (mkMessageUpdate "/start hello world"
        [{ type := MessageEntity.BOT_COMMAND, offset := 0, length := 6 }]
        "botname").effective_message = some m ∧
      ["hello", "world"] = (pySplitWs m.text).drop 1) ∧
    (∃ m2, (mkMessageUpdate "/start"
        [{ type := MessageEntity.BOT_COMMAND, offset := 0, length := 6 }]
        "botname").effective_message = some m2 ∧
      ([] : List String) = (pySplitWs m2.text).drop 1) ∧
    (CommandHandler.collect_additional_context { args := [], extra := [] }
        (["hello", "world"], .bool true)).args = ["hello", "world"] := by
  refine ⟨?_, ?_, ?_⟩
  · exact (args_extraction_and_context startHandler
      (mkMessageUpdate "/start hello world"
        [{ type := MessageEntity.BOT_COMMAND, offset := 0, length := 6 }] "botname")).1
      ["hello", "world"] (.bool true) (by decide)
  · exact (args_extraction_and_context startHandler
      (mkMessageUpdate "/start"
        [{ type := MessageEntity.BOT_COMMAND, offset := 0, length := 6 }] "botname")).1
      [] (.bool true) (by decide)
  · exact (args_extraction_and_context startHandler emptyUpdate).2
      { args := [], extra := [] } ["hello", "world"] (.bool true)

/-- C9: code-bug exhibit — on a message whose text is truthy (non-empty)
but consists only of whitespace, `PrefixHandler.check_update` does not
return a match result: `text.split()` is empty and the unguarded
`text_list[0]` subscript raises `IndexError` (modelled as
`Except.error PyError.indexError`). -/
theorem PrefixHandler_whitespace_only_text_raises :
    PrefixHandler.check_update bangTestHandler (mkMessageUpdate "   " [] "botname")
      = .error .indexError ∧
    ((mkMessageUpdate "   " [] "botname").effective_message.map Message.text)
      = some "   " ∧
    ("   " : String) ≠ "" := ⟨rfl, rfl, by decide⟩

/-- C10: `PrefixHandler` construction never raises for any prefix or
command strings: the parent constructor is run on the fixed placeholder
`nocommand` (which always validates) and the command set is then
overwritten with the unvalidated cross product — even command tokens the
CommandHandler check would reject (a space, or more than 32 characters)
are accepted at setup time. -/
theorem PrefixHandler_init_never_raises (prefixes command : List String)
    (f : Update → FilterResult) :
    (∃ ph, PrefixHandler.init prefixes command f = .ok ph ∧
      ph.command = prefixes.flatMap fun x => command.map fun y => strLower x ++ strLower y) ∧
    (∃ ph2, PrefixHandler.init ["!"] ["ab cd", "averyverylongcommandnameexceeding32characters"] f
      = .ok ph2) := by
  constructor
  · exact ⟨_, PrefixHandler_init_eq prefixes command f, rfl⟩
  · exact ⟨_, PrefixHandler_init_eq _ _ f⟩
